import Mathlib

/-!
Verification of the A/B-testing engine of `src/backend/ml/ab_testing.py`.

Modelling conventions (shallow embedding):
* Python floats are embedded as exact rationals (`ℚ`).  Where a claim turns on
  IEEE-754 double rounding, a float literal is embedded as the exact rational
  value of its nearest double (e.g. `tol001` below embeds the literal `0.01`).
* Counters are `ℕ`: they are initialised to `0` and only ever incremented.
* Python exceptions become `Except String` / `Option` results; `Option.none`
  stands for an uncaught `IndexError`.
* The MD5-based `StableHash` is embedded as an explicit parameter
  `hash : String → ℕ` (the integer value of the hex digest); every theorem
  about assignment is universally quantified over it.
* `scipy.stats.norm.cdf` and `np.sqrt` are external numerical routines; they
  are embedded as explicit function parameters `cdfF sqrtF : ℚ → ℚ`.
* The mutable `datetime.now()` timestamps are threaded as an explicit `now : ℕ`
  argument; logging calls have no observable effect and are dropped.
-/

namespace ABTesting

/-- `class ExperimentStatus(Enum)` — status of an A/B experiment. -/
inductive ExperimentStatus
  | draft
  | running
  | paused
  | completed
  | cancelled
deriving DecidableEq

/-- `@dataclass class ModelVariant` — a model variant in an A/B test.
The `metadata : Dict[str, Any]` field carries arbitrary opaque data that no
operation of the module reads; it is omitted from the embedding. -/
structure ModelVariant where
  name : String
  model_path : String
  traffic_percentage : ℚ
  is_control : Bool := false
  predictions : ℕ := 0
  correct_predictions : ℕ := 0
  fraud_detected : ℕ := 0
  false_positives : ℕ := 0
  false_negatives : ℕ := 0
  total_response_time_ms : ℚ := 0
deriving DecidableEq

/-- The per-variant metrics dictionary built by `get_variant_metrics`.
Keys that the Python code only adds conditionally are `Option`-valued;
`get_variant_metrics` itself returns `Option VariantMetrics`, with `none`
standing for the empty dictionary `{}` returned when `predictions == 0`. -/
structure VariantMetrics where
  predictions : ℕ
  fraud_detected : ℕ
  fraud_rate : ℚ
  avg_response_time_ms : ℚ
  accuracy : Option ℚ := none
  precision : Option ℚ := none
  -- the dictionary key is `recall`; `recall` is a reserved word here
  recall_ : Option ℚ := none
  f1_score : Option ℚ := none
deriving DecidableEq

/-- One entry of the `comparisons` dictionary built inside
`ABTestExperiment.analyze_results` (the nested `improvement` dict is
flattened into its two keys). -/
structure Comparison where
  control_metrics : Option VariantMetrics
  variant_metrics : Option VariantMetrics
  z_statistic : ℚ
  p_value : ℚ
  is_significant : Bool
  improvement_fraud_rate : ℚ
  improvement_response_time : ℚ
deriving DecidableEq

/-- `@dataclass class ExperimentResult` — result of an A/B experiment.
`metrics_comparison : Dict[str, Dict]` is embedded as an association list in
insertion order. -/
structure ExperimentResult where
  winner : Option String
  confidence : ℚ
  metrics_comparison : List (String × Comparison)
  statistical_significance : Bool
  recommendation : String
deriving DecidableEq

/-- `class ABTestExperiment` — the mutable attributes set in `__init__`
(plus `self.result`, which `complete` assigns). -/
structure Experiment where
  experiment_id : String
  name : String
  description : String := ""
  variants : List ModelVariant := []
  min_samples : ℕ := 1000
  confidence_level : ℚ := 19/20
  status : ExperimentStatus := .draft
  created_at : ℕ := 0
  started_at : Option ℕ := none
  completed_at : Option ℕ := none
  result : Option ExperimentResult := none
deriving DecidableEq

/-- The exact value of the IEEE-754 double nearest to the Python float literal
`0.01` (every tolerance comparison in the source compares against this double,
not against the real number 1/100). -/
def tol001 : ℚ := 5764607523034235 / 2 ^ 59

/-- `ABTestExperiment._validate_traffic_split`: with a non-empty variant list,
raises `ValueError` when `abs(total - 100.0) > 0.01`.  The subtraction
`total - 100.0` is exact for doubles in the tolerated neighbourhood of 100
(Sterbenz), so comparing exact rationals against `tol001` reproduces the
float comparison.  (The Python error message interpolates the offending
total; the message is elided here.) -/
def validate_traffic_split (variants : List ModelVariant) :
    Except String Unit :=
  match variants with
  | [] => .ok ()
  | _ =>
      if |(variants.map (fun v => v.traffic_percentage)).sum - 100| > tol001
      then .error "Traffic percentages must sum to 100%"
      else .ok ()

/-- `ABTestExperiment.__init__`: stores the constructor arguments, sets
`status = DRAFT`, `created_at = now`, then runs `_validate_traffic_split`
(whose `ValueError` propagates). -/
def mkExperiment (experiment_id name description : String)
    (variants : List ModelVariant) (min_samples : ℕ) (confidence_level : ℚ)
    (now : ℕ) : Except String Experiment :=
  match validate_traffic_split variants with
  | .error msg => .error msg
  | .ok _ =>
      .ok { experiment_id := experiment_id, name := name,
            description := description, variants := variants,
            min_samples := min_samples, confidence_level := confidence_level,
            status := .draft, created_at := now }

/-- `ABTestExperiment.start`: raises `ValueError` on an empty variant list,
otherwise unconditionally sets `status = RUNNING` and `started_at`
(a missing control variant only logs a warning). -/
def start (now : ℕ) (e : Experiment) : Except String Experiment :=
  if e.variants.isEmpty then
    .error "Cannot start experiment without variants"
  else
    .ok { e with status := .running, started_at := some now }

/-- `ABTestExperiment.pause`: unconditionally sets `status = PAUSED`. -/
def pause (e : Experiment) : Except String Experiment :=
  .ok { e with status := .paused }

/-- `ABTestExperiment.resume`: raises `ValueError` unless `status == PAUSED`,
otherwise sets `status = RUNNING`. -/
def resume (e : Experiment) : Except String Experiment :=
  if e.status ≠ ExperimentStatus.paused then
    .error "Can only resume paused experiments"
  else
    .ok { e with status := .running }

/-- `ABTestExperiment.complete`: unconditionally sets `status = COMPLETED`,
`completed_at`, and stores the result. -/
def complete (result : ExperimentResult) (now : ℕ) (e : Experiment) :
    Except String Experiment :=
  .ok { e with status := .completed, completed_at := some now,
               result := some result }

/-- The `for variant in self.variants` loop of `get_variant_for_user`:
accumulate `traffic_percentage` and return the first variant with
`bucket < cumulative`; `none` when the list is exhausted. -/
def assignByBucket (bucket : ℚ) : ℚ → List ModelVariant → Option ModelVariant
  | _, [] => none
  | cumulative, v :: vs =>
      let cumulative := cumulative + v.traffic_percentage
      if bucket < cumulative then some v else assignByBucket bucket cumulative vs

/-- `next((v for v in self.variants if v.is_control), self.variants[0])`:
the first control variant, else the first variant; `none` is the
`IndexError` raised by `self.variants[0]` on an empty list. -/
def controlOf (variants : List ModelVariant) : Option ModelVariant :=
  match variants.find? (fun v => v.is_control) with
  | some v => some v
  | none => variants.head?

/-- `ABTestExperiment.get_variant_for_user`: control fallback when not
RUNNING; otherwise MD5 bucketing (`hash` is the integer digest function) and
the cumulative-traffic walk, with `self.variants[-1]` as the exhaustion
fallback.  `none` models the `IndexError` on an empty variant list. -/
def get_variant_for_user (hash : String → ℕ) (e : Experiment)
    (user_id : String) : Option ModelVariant :=
  if e.status ≠ ExperimentStatus.running then
    controlOf e.variants
  else
    let bucket : ℕ := hash (user_id ++ ":" ++ e.experiment_id) % 100
    match assignByBucket (bucket : ℚ) 0 e.variants with
    | some v => some v
    | none => e.variants.getLast?

/-- The counter updates `record_prediction` applies to the variant it found:
`predictions`/`total_response_time_ms` unconditionally, `fraud_detected` when
fraud was predicted, and — when ground truth is known — exactly one of
`correct_predictions` / `false_positives` / `false_negatives`. -/
def updateCounters (v : ModelVariant) (is_fraud_predicted : Bool)
    (is_fraud_actual : Option Bool) (response_time_ms : ℚ) : ModelVariant :=
  let v := { v with predictions := v.predictions + 1,
                    total_response_time_ms :=
                      v.total_response_time_ms + response_time_ms }
  let v := if is_fraud_predicted then
             { v with fraud_detected := v.fraud_detected + 1 }
           else v
  match is_fraud_actual with
  | none => v
  | some actual =>
      if is_fraud_predicted = actual then
        { v with correct_predictions := v.correct_predictions + 1 }
      else if is_fraud_predicted ∧ ¬ actual then
        { v with false_positives := v.false_positives + 1 }
      else if ¬ is_fraud_predicted ∧ actual then
        { v with false_negatives := v.false_negatives + 1 }
      else v

/-- Replace the first element satisfying `p` (Python mutates the single
object found by `next(...)`; the rest of the list is untouched). -/
def updateFirst (p : ModelVariant → Bool) (f : ModelVariant → ModelVariant) :
    List ModelVariant → List ModelVariant
  | [] => []
  | v :: vs => if p v then f v :: vs else v :: updateFirst p f vs

/-- `ABTestExperiment.record_prediction`: looks up the first variant with the
given name; an unknown name only logs a warning and returns with no change. -/
def record_prediction (e : Experiment) (variant_name : String)
    (is_fraud_predicted : Bool) (is_fraud_actual : Option Bool)
    (response_time_ms : ℚ) : Experiment :=
  match e.variants.find? (fun v => v.name == variant_name) with
  | none => e
  | some _ =>
      { e with variants :=
          (updateFirst (fun v => v.name == variant_name)
            (fun v => updateCounters v is_fraud_predicted is_fraud_actual
                        response_time_ms) e.variants) }

/-- The `f1_score` computation of `get_variant_metrics`, including its
Python truthiness guard `if metrics.get('precision') and
metrics.get('recall')` (an absent *or zero* operand yields no key) and the
inner `if (p + r) > 0 ... else 0`. -/
def f1Of (precision recallV : Option ℚ) : Option ℚ :=
  match precision, recallV with
  | some p, some r =>
      if p ≠ 0 ∧ r ≠ 0 then
        some (if 0 < p + r then 2 * (p * r) / (p + r) else 0)
      else none
  | _, _ => none

/-- `ABTestExperiment.get_variant_metrics`: `none` is the empty dictionary
returned when `predictions == 0`; the conditional keys follow the source's
guards. -/
def get_variant_metrics (v : ModelVariant) : Option VariantMetrics :=
  if v.predictions = 0 then none
  else
    let total_labeled :=
      v.correct_predictions + v.false_positives + v.false_negatives
    let accuracy : Option ℚ :=
      if 0 < total_labeled then
        some ((v.correct_predictions : ℚ) / (total_labeled : ℚ))
      else none
    let precision : Option ℚ :=
      if 0 < total_labeled ∧ 0 < v.fraud_detected then
        some (((v.fraud_detected : ℚ) - (v.false_positives : ℚ)) /
              (v.fraud_detected : ℚ))
      else none
    let tp : ℚ := (v.fraud_detected : ℚ) - (v.false_positives : ℚ)
    let recallV : Option ℚ :=
      if 0 < total_labeled ∧ 0 < tp + (v.false_negatives : ℚ) then
        some (tp / (tp + (v.false_negatives : ℚ)))
      else none
    let f1 := f1Of precision recallV
    some { predictions := v.predictions,
           fraud_detected := v.fraud_detected,
           fraud_rate := (v.fraud_detected : ℚ) / (v.predictions : ℚ),
           avg_response_time_ms :=
             v.total_response_time_ms / (v.predictions : ℚ),
           accuracy := accuracy, precision := precision,
           recall_ := recallV, f1_score := f1 }

/-- `metrics_by_variant[name]` with Python dict overwrite semantics: the
metrics of the *last* variant carrying `name` (the loop inserts in order, a
duplicate name overwrites the earlier entry). -/
def metricsDict (variants : List ModelVariant) (name : String) :
    Option VariantMetrics :=
  match (variants.filter (fun v => v.name == name)).getLast? with
  | none => none
  | some v => get_variant_metrics v

/-- `metrics.get('fraud_rate', 0)` on a possibly-empty metrics dict. -/
def fraudRateD (m : Option VariantMetrics) : ℚ :=
  (m.map (fun x => x.fraud_rate)).getD 0

/-- `metrics.get('accuracy', 0)` on a possibly-empty metrics dict. -/
def accD (m : Option VariantMetrics) : ℚ :=
  ((m.bind (fun x => x.accuracy)).getD 0)

/-- `metrics.get('avg_response_time_ms', 0)` on a possibly-empty dict. -/
def avgRtD (m : Option VariantMetrics) : ℚ :=
  (m.map (fun x => x.avg_response_time_ms)).getD 0

/-- The two-proportion z-test block of `analyze_results` (the statements
from `n1, n2 = ...` down to `is_significant = ...`), returning
`(z_stat, p_value, is_significant)`.  `sqrtF` embeds `np.sqrt` and `cdfF`
embeds `scipy.stats.norm.cdf`. -/
def zTestStats (sqrtF cdfF : ℚ → ℚ) (confidence_level : ℚ)
    (control variant : ModelVariant)
    (control_metrics variant_metrics : Option VariantMetrics) :
    ℚ × ℚ × Bool :=
  let p1 := fraudRateD control_metrics
  let p2 := fraudRateD variant_metrics
  let n1 := control.predictions
  let n2 := variant.predictions
  if 0 < n1 ∧ 0 < n2 then
    let pooled_p := (p1 * (n1 : ℚ) + p2 * (n2 : ℚ)) / ((n1 : ℚ) + (n2 : ℚ))
    let se := sqrtF (pooled_p * (1 - pooled_p) * (1 / (n1 : ℚ) + 1 / (n2 : ℚ)))
    let z_stat := if 0 < se then (p2 - p1) / se else 0
    let p_value := 2 * (1 - cdfF |z_stat|)
    (z_stat, p_value, decide (p_value < 1 - confidence_level))
  else
    (0, 1, false)

/-- Loop state of the `for variant in self.variants` comparison loop of
`analyze_results`. -/
structure AnalyzeAcc where
  comparisons : List (String × Comparison)
  best_variant : ModelVariant
  best_improvement : ℚ

/-- The comparison entry the loop body of `analyze_results` inserts into
`comparisons[variant.name]`. -/
def mkComparison (sqrtF cdfF : ℚ → ℚ) (confidence_level : ℚ)
    (allVariants : List ModelVariant) (control : ModelVariant)
    (control_metrics : Option VariantMetrics) (variant : ModelVariant) :
    Comparison :=
  let variant_metrics := metricsDict allVariants variant.name
  let zps := zTestStats sqrtF cdfF confidence_level control variant
               control_metrics variant_metrics
  { control_metrics := control_metrics,
    variant_metrics := variant_metrics,
    z_statistic := zps.1, p_value := zps.2.1, is_significant := zps.2.2,
    improvement_fraud_rate :=
      fraudRateD variant_metrics - fraudRateD control_metrics,
    improvement_response_time :=
      avgRtD variant_metrics - avgRtD control_metrics }

/-- One iteration of the comparison loop of `analyze_results`: skip the
control, build the comparison entry, then update the champion when this
variant's accuracy improves on the control's by more than the best so far. -/
def analyzeStep (sqrtF cdfF : ℚ → ℚ) (confidence_level : ℚ)
    (allVariants : List ModelVariant) (control : ModelVariant)
    (control_metrics : Option VariantMetrics)
    (acc : AnalyzeAcc) (variant : ModelVariant) : AnalyzeAcc :=
  if variant.name == control.name then acc
  else
    let comp := mkComparison sqrtF cdfF confidence_level allVariants control
                  control_metrics variant
    let variant_metrics := metricsDict allVariants variant.name
    let acc := { acc with
                   comparisons := acc.comparisons ++ [(variant.name, comp)] }
    if accD control_metrics < accD variant_metrics then
      let improvement := accD variant_metrics - accD control_metrics
      if acc.best_improvement < improvement then
        { acc with best_variant := variant, best_improvement := improvement }
      else acc
    else acc

/-- `max(...)` over a list that Python guards with `if comparisons else 0`. -/
def listMax : List ℚ → ℚ
  | [] => 0
  | x :: xs => xs.foldl max x

/-- `ABTestExperiment.analyze_results`.  The minimum-sample check only logs
warnings and is dropped.  `none` models the `IndexError` that
`self.variants[0]` raises on an empty variant list. -/
def analyze_results (sqrtF cdfF : ℚ → ℚ) (e : Experiment) :
    Option ExperimentResult :=
  match controlOf e.variants with
  | none => none
  | some control =>
      let control_metrics := metricsDict e.variants control.name
      let acc := e.variants.foldl
        (analyzeStep sqrtF cdfF e.confidence_level e.variants control
          control_metrics)
        { comparisons := [], best_variant := control, best_improvement := 0 }
      let deploy : Bool :=
        !(acc.best_variant.name == control.name) &&
          decide (tol001 < acc.best_improvement)
      let recommendation :=
        if deploy then
          "Deploy variant '" ++ acc.best_variant.name ++ "' as the new model"
        else
          "Keep current model '" ++ control.name ++ "'"
      let winner := if deploy then acc.best_variant.name else control.name
      let max_confidence :=
        listMax (acc.comparisons.map (fun c => 1 - c.2.p_value))
      some { winner := some winner,
             confidence := max_confidence,
             metrics_comparison := acc.comparisons,
             statistical_significance :=
               acc.comparisons.any (fun c => c.2.is_significant),
             recommendation := recommendation }

/-- Per-prediction output of `predict_with_ab_test`: either the external
model's prediction or the fallback info dictionary
`{'variant': ..., 'model_path': ...}` used when no loader is registered. -/
inductive PredictionOutput (Pred : Type)
  | model (p : Pred)
  | fallback (variant : String) (model_path : String)
deriving DecidableEq

/-- `class ABTestingService` — the `experiments` dictionary, embedded as an
association list in insertion order.  The `_model_loaders` dictionary holds
arbitrary Python callables; it is passed to the operations that consult it as
an explicit parameter `loaders : String → Option (Feat → Except String Pred)`
(a registered loader composed with the external model's `predict`). -/
structure ABTestingService where
  experiments : List (String × Experiment) := []
deriving DecidableEq

/-- `self.experiments.get(experiment_id)`. -/
def lookupExperiment (svc : ABTestingService) (experiment_id : String) :
    Option Experiment :=
  (svc.experiments.find? (fun p => p.1 == experiment_id)).map (fun p => p.2)

/-- `ABTestingService.predict_with_ab_test`: requires the experiment to exist
and be RUNNING, assigns the variant with `get_variant_for_user`, then either
calls the registered loader's model (whose failure, `.error`, propagates) or
returns the fallback info.  The service state is returned alongside the
result; the method performs no mutation — in particular it never calls
`record_prediction`. -/
def predict_with_ab_test {Feat Pred : Type} (hash : String → ℕ)
    (loaders : String → Option (Feat → Except String Pred))
    (svc : ABTestingService) (experiment_id user_id : String) (features : Feat) :
    Except String (String × PredictionOutput Pred × ABTestingService) :=
  match lookupExperiment svc experiment_id with
  | none => .error "Experiment not found or not running"
  | some experiment =>
      if experiment.status ≠ ExperimentStatus.running then
        .error "Experiment not found or not running"
      else
        match get_variant_for_user hash experiment user_id with
        | none => .error "IndexError"
        | some variant =>
            match loaders variant.name with
            | some model =>
                match model features with
                | .ok prediction =>
                    .ok (variant.name, .model prediction, svc)
                | .error err => .error err
            | none =>
                .ok (variant.name,
                     .fallback variant.name variant.model_path, svc)

/-! ## Spec-side definitions (for refinement claims) -/

/-- Written from the spec (§4.1): walk the variant list in canonical order,
accumulating `trafficPercentage`, and return the first variant whose
cumulative sum strictly exceeds the bucket; `none` when the running total is
exhausted without a match. -/
def specWalk (bucket : ℚ) (acc : ℚ) : List ModelVariant → Option ModelVariant
  | [] => none
  | v :: vs =>
      if acc + v.traffic_percentage > bucket then some v
      else specWalk bucket (acc + v.traffic_percentage) vs

/-- Written from the spec (§4.1): `AssignVariant`.  In `Running` state, bucket
by `StableHash(callerId ++ ":" ++ experimentId) mod 100` and take the first
variant whose cumulative traffic strictly exceeds the bucket, falling back to
the last variant when the walk is exhausted; otherwise return the first
control variant, or the first variant in list order if none is marked
control. -/
def specAssignVariant (hash : String → ℕ) (e : Experiment)
    (callerId : String) : Option ModelVariant :=
  if e.status = ExperimentStatus.running then
    let bucket : ℕ := hash (callerId ++ ":" ++ e.experiment_id) % 100
    match specWalk (bucket : ℚ) 0 e.variants with
    | some v => some v
    | none => e.variants.getLast?
  else
    match e.variants.find? (fun v => v.is_control) with
    | some v => some v
    | none => e.variants.head?

/-! ## Helper lemmas -/

theorem assignByBucket_eq_specWalk (bucket : ℚ) :
    ∀ (l : List ModelVariant) (acc : ℚ),
      assignByBucket bucket acc l = specWalk bucket acc l := by
  intro l
  induction l with
  | nil => intro acc; rfl
  | cons v vs ih =>
      intro acc
      simp only [assignByBucket, specWalk, gt_iff_lt]
      by_cases h : bucket < acc + v.traffic_percentage
      · simp [h]
      · simp [h, ih]

theorem assignByBucket_mem {bucket : ℚ} :
    ∀ {l : List ModelVariant} {acc : ℚ} {v : ModelVariant},
      assignByBucket bucket acc l = some v → v ∈ l := by
  intro l
  induction l with
  | nil => intro acc v h; simp [assignByBucket] at h
  | cons w ws ih =>
      intro acc v h
      simp only [assignByBucket] at h
      by_cases hc : bucket < acc + w.traffic_percentage
      · rw [if_pos hc] at h
        cases h
        exact List.mem_cons_self _ _
      · rw [if_neg hc] at h
        exact List.mem_cons_of_mem _ (ih h)

/-! ## Claims -/

/-- C1: `get_variant_for_user` implements the spec's `AssignVariant`
algorithm exactly: in `Running` state it buckets
`StableHash(callerId ++ ":" ++ experimentId) mod 100` and returns the first
variant whose cumulative `trafficPercentage` strictly exceeds the bucket
(last variant when the walk is exhausted); in any other state it returns the
first control variant, or the first variant in list order if none is marked
control. -/
theorem C1_assign_variant_matches_spec (hash : String → ℕ) (e : Experiment)
    (callerId : String) :
    get_variant_for_user hash e callerId = specAssignVariant hash e callerId := by
  unfold get_variant_for_user specAssignVariant controlOf
  by_cases hs : e.status = ExperimentStatus.running
  · simp only [hs, if_pos, ne_eq, not_true_eq_false, if_false, if_true,
      reduceIte, assignByBucket_eq_specWalk]
  · simp [hs]

/-- C5: assignment is deterministic and depends only on the caller id, the
experiment id, the experiment's status and its variant configuration: two
experiments agreeing on those three fields assign every caller identically,
whatever the (fixed, non-random) hash function is. -/
theorem C5_assignment_deterministic (hash : String → ℕ) (e1 e2 : Experiment)
    (callerId : String) (hst : e1.status = e2.status)
    (hv : e1.variants = e2.variants)
    (hid : e1.experiment_id = e2.experiment_id) :
    get_variant_for_user hash e1 callerId
      = get_variant_for_user hash e2 callerId := by
  unfold get_variant_for_user controlOf
  rw [hst, hv, hid]

/-- Concrete experiments for the C5 witness: they agree on status, variants
and experiment id but differ in every other field. -/
def expDetA : Experiment :=
  { experiment_id := "exp1", name := "first run", description := "a",
    variants := [{ name := "A", model_path := "m1",
                   traffic_percentage := 60, is_control := true },
                 { name := "B", model_path := "m2",
                   traffic_percentage := 40 }],
    min_samples := 1000, confidence_level := 19/20,
    status := .running, created_at := 5 }

def expDetB : Experiment :=
  { expDetA with name := "second run", description := "b",
                 min_samples := 7, confidence_level := 1/2,
                 created_at := 99, started_at := some 100 }

theorem C5_assignment_deterministic_witness :
    get_variant_for_user (fun s => s.length) expDetA "caller"
      = get_variant_for_user (fun s => s.length) expDetB "caller" :=
  C5_assignment_deterministic (fun s => s.length) expDetA expDetB "caller"
    rfl rfl rfl

/-- C10: for a non-empty variant list, `get_variant_for_user` always returns
a member of the experiment's variant list, in every lifecycle status; for an
empty variant list it raises `IndexError` (modelled `none`) on both the
`Running` path (`self.variants[-1]`) and the fallback path
(`self.variants[0]`). -/
theorem C10_assign_membership (hash : String → ℕ) (e : Experiment)
    (userId : String) :
    (e.variants ≠ [] →
      ∃ v, get_variant_for_user hash e userId = some v ∧ v ∈ e.variants) ∧
    (e.variants = [] → get_variant_for_user hash e userId = none) := by
  constructor
  · intro hne
    unfold get_variant_for_user controlOf
    by_cases hs : e.status = ExperimentStatus.running
    · simp only [ne_eq, hs, not_true_eq_false, if_false]
      cases hab : assignByBucket
          ((hash (userId ++ ":" ++ e.experiment_id) % 100 : ℕ) : ℚ) 0
          e.variants with
      | some v => exact ⟨v, by simp [hab], assignByBucket_mem hab⟩
      | none =>
          cases hgl : e.variants.getLast? with
          | none =>
              rw [List.getLast?_eq_none_iff] at hgl
              exact absurd hgl hne
          | some v =>
              exact ⟨v, by simp [hab, hgl], List.mem_of_mem_getLast? hgl⟩
    · simp only [ne_eq, hs, not_false_eq_true, if_true]
      cases hf : e.variants.find? (fun v => v.is_control) with
      | some v => exact ⟨v, by simp [hf], List.mem_of_find?_eq_some hf⟩
      | none =>
          cases hl : e.variants with
          | nil => exact absurd hl hne
          | cons a t =>
              exact ⟨a, by simp [hf, hl], by simp [hl]⟩
  · intro h
    unfold get_variant_for_user controlOf
    rw [h]
    simp [assignByBucket]

/-- Concrete input for the C10 witness: a paused two-variant experiment. -/
def expMem : Experiment :=
  { expDetA with status := .paused }

theorem C10_assign_membership_witness :
    ∃ v, get_variant_for_user (fun s => s.length) expMem "u" = some v ∧
      v ∈ expMem.variants :=
  (C10_assign_membership (fun s => s.length) expMem "u").1 (by decide)

/-- A completed experiment, used to exhibit the missing terminal-state
guards. -/
def expCompleted : Experiment :=
  { expDetA with status := .completed }

/-- C2 counterexample: `Completed` is not terminal and `pause` is not
guarded — on an experiment in `Completed` status, `pause()` succeeds and
moves it to `Paused`, and `start()` succeeds and moves it to `Running`,
where the claim demands both fail with a `StateError` and leave the status
unchanged. -/
theorem C2_counterexample :
    pause expCompleted = Except.ok { expCompleted with status := .paused } ∧
    start 7 expCompleted
      = Except.ok { expCompleted with status := .running, started_at := some 7 } := by
  exact ⟨rfl, rfl⟩

/-- C2 (amended): only `resume` is guarded — it fails (raising `ValueError`,
the source has no distinct `StateError`) exactly when the status is not
`Paused`, leaving the experiment unchanged; `pause` unconditionally moves any
experiment (including `Completed`/`Cancelled` ones) to `Paused`; `complete`
unconditionally moves to `Completed`; `start` succeeds exactly when the
variant list is non-empty, regardless of status; no `cancel` transition
exists in the code, so `Completed` and `Cancelled` are not terminal. -/
theorem C2_amended_transitions (e : Experiment) :
    (pause e = Except.ok { e with status := .paused }) ∧
    (e.status ≠ ExperimentStatus.paused →
      resume e = Except.error "Can only resume paused experiments") ∧
    (e.status = ExperimentStatus.paused →
      resume e = Except.ok { e with status := .running }) ∧
    (e.variants = [] → ∀ now, start now e
      = Except.error "Cannot start experiment without variants") ∧
    (e.variants ≠ [] → ∀ now, start now e
      = Except.ok { e with status := .running, started_at := some now }) ∧
    (∀ r now, complete r now e
      = Except.ok { e with status := .completed, completed_at := some now, result := some r }) := by
  refine ⟨rfl, fun h => ?_, fun h => ?_, fun h now => ?_, fun h now => ?_,
    fun r now => rfl⟩
  · unfold resume
    rw [if_pos h]
  · unfold resume
    rw [if_neg (by simp [h])]
  · unfold start
    rw [if_pos (by simp [h])]
  · unfold start
    rw [if_neg (by simp [List.isEmpty_iff, h])]

theorem C2_amended_transitions_witness :
    resume expCompleted = Except.error "Can only resume paused experiments" ∧
    pause expCompleted = Except.ok { expCompleted with status := .paused } ∧
    start 3 expCompleted
      = Except.ok { expCompleted with status := .running, started_at := some 3 } :=
  ⟨(C2_amended_transitions expCompleted).2.1 (by decide),
   (C2_amended_transitions expCompleted).1,
   (C2_amended_transitions expCompleted).2.2.2.2.1 (by decide) 3⟩

/-- C4: `record_prediction` addressed to an existing variant name updates
exactly the first variant of that name via `updateCounters`, which increments
`predictions` by 1 and `total_response_time_ms` by the response time
unconditionally, increments `fraud_detected` iff fraud was predicted, and —
when ground truth is present — increments exactly one of
`correct_predictions` (predicted = actual), `false_positives` (predicted
fraud, actual not) or `false_negatives` (predicted not fraud, actual fraud),
leaving the other two unchanged; with no ground truth none of the three
changes. -/
theorem C4_record_outcome (e : Experiment) (variant_name : String)
    (pred : Bool) (actual : Option Bool) (rt : ℚ) (v : ModelVariant)
    (hfind : e.variants.find? (fun w => w.name == variant_name) = some v) :
    ((record_prediction e variant_name pred actual rt).variants
      = updateFirst (fun w => w.name == variant_name)
          (fun w => updateCounters w pred actual rt) e.variants) ∧
    ((updateCounters v pred actual rt).predictions = v.predictions + 1) ∧
    ((updateCounters v pred actual rt).total_response_time_ms
      = v.total_response_time_ms + rt) ∧
    ((updateCounters v pred actual rt).fraud_detected
      = v.fraud_detected + (if pred then 1 else 0)) ∧
    (actual = none →
      (updateCounters v pred actual rt).correct_predictions
          = v.correct_predictions ∧
      (updateCounters v pred actual rt).false_positives
          = v.false_positives ∧
      (updateCounters v pred actual rt).false_negatives
          = v.false_negatives) ∧
    (∀ a, actual = some a →
      ((pred = a) →
        (updateCounters v pred actual rt).correct_predictions
            = v.correct_predictions + 1 ∧
        (updateCounters v pred actual rt).false_positives
            = v.false_positives ∧
        (updateCounters v pred actual rt).false_negatives
            = v.false_negatives) ∧
      ((pred = true ∧ a = false) →
        (updateCounters v pred actual rt).false_positives
            = v.false_positives + 1 ∧
        (updateCounters v pred actual rt).correct_predictions
            = v.correct_predictions ∧
        (updateCounters v pred actual rt).false_negatives
            = v.false_negatives) ∧
      ((pred = false ∧ a = true) →
        (updateCounters v pred actual rt).false_negatives
            = v.false_negatives + 1 ∧
        (updateCounters v pred actual rt).correct_predictions
            = v.correct_predictions ∧
        (updateCounters v pred actual rt).false_positives
            = v.false_positives)) := by
  refine ⟨?_, ?_⟩
  · unfold record_prediction
    rw [hfind]
  · cases pred <;> rcases actual with _ | (_ | _) <;>
      simp [updateCounters]

/-- The second variant of `expDetA`, for the C4 witness. -/
def variantB : ModelVariant :=
  { name := "B", model_path := "m2", traffic_percentage := 40 }

theorem C4_record_outcome_witness :
    ((record_prediction expDetA "B" true (some false) 2).variants
      = updateFirst (fun w => w.name == "B")
          (fun w => updateCounters w true (some false) 2) expDetA.variants) ∧
    (updateCounters variantB true (some false) 2).false_positives
        = variantB.false_positives + 1 ∧
    (updateCounters variantB true (some false) 2).predictions
        = variantB.predictions + 1 := by
  obtain ⟨h1, h2, h3, h4, h5, h6⟩ :=
    C4_record_outcome expDetA "B" true (some false) 2 variantB (by decide)
  exact ⟨h1, ((h6 false rfl).2.1 ⟨rfl, rfl⟩).1, h2⟩

/-- The exact value of the IEEE-754 double nearest to the Python float
literal `99.99` (it is 99.98999999999999488…, strictly farther than the
double `0.01` from 100). -/
def d9999 : ℚ := 7036170730324623 / 2 ^ 46

/-- A single control variant carrying the double value of the literal
`99.99` as its traffic percentage. -/
def variant9999 : ModelVariant :=
  { name := "v", model_path := "m", traffic_percentage := d9999,
    is_control := true }

/-- C6 counterexample: the claim asserts construction succeeds at a traffic
sum of 99.99, but the Python literal `99.99` is the double
99.98999999999999488…, whose distance to 100.0 (the subtraction is exact at
this magnitude) is 0.01000000000000512…, strictly greater than the double
`0.01` — so `ABTestExperiment.__init__` raises `ValueError` and the
experiment is not created. -/
theorem sum9999_far :
    |(([variant9999].map (fun v => v.traffic_percentage)).sum) - 100|
      > tol001 := by
  simp only [List.map_cons, List.map_nil, List.sum_cons, List.sum_nil,
    add_zero, variant9999]
  have h : (d9999 : ℚ) - 100 < 0 := by norm_num [d9999]
  rw [abs_of_neg h]
  norm_num [d9999, tol001]

theorem C6_counterexample :
    mkExperiment "e1" "exp" "" [variant9999] 1000 (19/20) 0
      = Except.error "Traffic percentages must sum to 100%" := by
  unfold mkExperiment validate_traffic_split
  rw [if_pos sum9999_far]

/-- C6 (amended): constructing an experiment with a non-empty variant list
fails with `ValidationError` iff the sum of the variants' traffic
percentages differs from 100 by more than the double value of `0.01`, all
values being IEEE-754 doubles; because the literals 99.99 and 100.01 round
to doubles farther than that tolerance from 100, construction fails at those
two literals, while it succeeds at exactly 100.0 (and at representable sums
within the tolerance, e.g. 99.9921875).  On failure the constructor raises
before the experiment exists, so the registry's catalogue is unchanged. -/
theorem C6_amended (experiment_id name description : String)
    (variants : List ModelVariant) (min_samples : ℕ)
    (confidence_level : ℚ) (now : ℕ) (hne : variants ≠ []) :
    (∃ msg, mkExperiment experiment_id name description variants
        min_samples confidence_level now = Except.error msg) ↔
      |((variants.map (fun v => v.traffic_percentage)).sum) - 100| > tol001 := by
  cases variants with
  | nil => exact absurd rfl hne
  | cons v vs =>
      unfold mkExperiment validate_traffic_split
      by_cases h :
        |(((v :: vs).map (fun w => w.traffic_percentage)).sum) - 100| > tol001
      · rw [if_pos h]
        exact ⟨fun _ => h,
          fun _ => ⟨"Traffic percentages must sum to 100%", rfl⟩⟩
      · rw [if_neg h]
        exact ⟨fun hex => (hex.elim fun msg hm => Except.noConfusion hm),
          fun hp => absurd hp h⟩

theorem C6_amended_witness :
    ∃ msg, mkExperiment "e1" "exp" "" [variant9999] 1000 (19/20) 0
      = Except.error msg :=
  (C6_amended "e1" "exp" "" [variant9999] 1000 (19/20) 0
    (by simp)).mpr sum9999_far

/-- Counters with a positive flagged count but zero true positives:
`precision` and `recall` are both present and equal to 0. -/
def variantZeroPR : ModelVariant :=
  { name := "v", model_path := "m", traffic_percentage := 100,
    predictions := 4, correct_predictions := 1, fraud_detected := 1,
    false_positives := 1, false_negatives := 1 }

/-- C8 counterexample: the claim asserts `f1 = 0` when precision and recall
are both 0, but the source guards the f1 computation with the Python
truthiness test `if metrics.get('precision') and metrics.get('recall')`, and
`0.0` is falsy — so with precision = recall = 0 the `f1_score` key is
omitted from the metrics dictionary, not set to 0. -/
theorem C8_counterexample :
    (get_variant_metrics variantZeroPR).map
        (fun m => (m.precision, m.recall_, m.f1_score))
      = some (some 0, some 0, none) := by
  have h : get_variant_metrics variantZeroPR
      = some { predictions := 4, fraud_detected := 1, fraud_rate := 1/4,
               avg_response_time_ms := 0, accuracy := some (1/3),
               precision := some 0, recall_ := some 0, f1_score := none } := by
    unfold get_variant_metrics variantZeroPR
    norm_num [f1Of]
  rw [h]
  rfl

theorem f1Of_none_left (r : Option ℚ) : f1Of none r = none := by
  cases r <;> rfl

theorem f1Of_none_right (p : Option ℚ) : f1Of p none = none := by
  cases p <;> rfl

theorem f1Of_zero_left (r : Option ℚ) : f1Of (some 0) r = none := by
  cases r with
  | none => rfl
  | some x => simp [f1Of]

theorem f1Of_zero_right (p : Option ℚ) : f1Of p (some 0) = none := by
  cases p with
  | none => rfl
  | some x => simp [f1Of]

theorem f1Of_pos {p r : ℚ} (hp : p ≠ 0) (hr : r ≠ 0) (hpr : 0 < p + r) :
    f1Of (some p) (some r) = some (2 * (p * r) / (p + r)) := by
  show (if p ≠ 0 ∧ r ≠ 0 then
      some (if 0 < p + r then 2 * (p * r) / (p + r) else 0) else none)
    = some (2 * (p * r) / (p + r))
  rw [if_pos ⟨hp, hr⟩, if_pos hpr]

/-- `get_variant_metrics` on a variant with at least one prediction, with
every conditional key spelled out. -/
theorem get_variant_metrics_some (v : ModelVariant) (hp : v.predictions ≠ 0) :
    get_variant_metrics v = some
      { predictions := v.predictions,
        fraud_detected := v.fraud_detected,
        fraud_rate := (v.fraud_detected : ℚ) / (v.predictions : ℚ),
        avg_response_time_ms := v.total_response_time_ms / (v.predictions : ℚ),
        accuracy :=
          if 0 < v.correct_predictions + v.false_positives + v.false_negatives
          then some ((v.correct_predictions : ℚ)
            / ((v.correct_predictions + v.false_positives
                + v.false_negatives : ℕ) : ℚ))
          else none,
        precision :=
          if 0 < v.correct_predictions + v.false_positives + v.false_negatives
              ∧ 0 < v.fraud_detected
          then some (((v.fraud_detected : ℚ) - (v.false_positives : ℚ))
            / (v.fraud_detected : ℚ))
          else none,
        recall_ :=
          if 0 < v.correct_predictions + v.false_positives + v.false_negatives
              ∧ 0 < (v.fraud_detected : ℚ) - (v.false_positives : ℚ)
                  + (v.false_negatives : ℚ)
          then some (((v.fraud_detected : ℚ) - (v.false_positives : ℚ))
            / ((v.fraud_detected : ℚ) - (v.false_positives : ℚ)
                + (v.false_negatives : ℚ)))
          else none,
        f1_score := f1Of
          (if 0 < v.correct_predictions + v.false_positives + v.false_negatives
              ∧ 0 < v.fraud_detected
           then some (((v.fraud_detected : ℚ) - (v.false_positives : ℚ))
             / (v.fraud_detected : ℚ))
           else none)
          (if 0 < v.correct_predictions + v.false_positives + v.false_negatives
              ∧ 0 < (v.fraud_detected : ℚ) - (v.false_positives : ℚ)
                  + (v.false_negatives : ℚ)
           then some (((v.fraud_detected : ℚ) - (v.false_positives : ℚ))
             / ((v.fraud_detected : ℚ) - (v.false_positives : ℚ)
                 + (v.false_negatives : ℚ)))
           else none) } := by
  unfold get_variant_metrics
  rw [if_neg hp]

/-- C8 (amended): with `predictions ≠ 0` and at least one labelled outcome,
`truePositives = fraudFlagged − falsePositives`; `precision =
truePositives / fraudFlagged`, omitted iff `fraudFlagged = 0`; `recall =
truePositives / (truePositives + falseNegatives)`, omitted iff that
denominator is 0; and `f1 = 2·precision·recall / (precision + recall)` is
computed only when precision and recall are both present *and nonzero* —
when either is absent or zero (in particular when both are 0) `f1` is
omitted rather than set to 0. -/
theorem C8_amended (v : ModelVariant) (hp : v.predictions ≠ 0)
    (hl : v.correct_predictions + v.false_positives + v.false_negatives ≠ 0)
    (hfp : v.false_positives ≤ v.fraud_detected) :
    ∃ m, get_variant_metrics v = some m ∧
      (0 < v.fraud_detected → m.precision
        = some (((v.fraud_detected : ℚ) - (v.false_positives : ℚ))
                  / (v.fraud_detected : ℚ))) ∧
      (v.fraud_detected = 0 → m.precision = none) ∧
      (0 < (v.fraud_detected : ℚ) - (v.false_positives : ℚ)
             + (v.false_negatives : ℚ) → m.recall_
        = some (((v.fraud_detected : ℚ) - (v.false_positives : ℚ))
                  / ((v.fraud_detected : ℚ) - (v.false_positives : ℚ)
                      + (v.false_negatives : ℚ)))) ∧
      ((v.fraud_detected : ℚ) - (v.false_positives : ℚ)
          + (v.false_negatives : ℚ) = 0 → m.recall_ = none) ∧
      (∀ p r, m.precision = some p → m.recall_ = some r → p ≠ 0 → r ≠ 0 →
        m.f1_score = some (2 * (p * r) / (p + r))) ∧
      ((m.precision = none ∨ m.precision = some 0 ∨ m.recall_ = none ∨
          m.recall_ = some 0) → m.f1_score = none) := by
  have htot : 0 < v.correct_predictions + v.false_positives
      + v.false_negatives := Nat.pos_of_ne_zero hl
  refine ⟨_, get_variant_metrics_some v hp, ?_, ?_, ?_, ?_, ?_, ?_⟩
  · intro hfd
    dsimp only
    rw [if_pos ⟨htot, hfd⟩]
  · intro hfd
    dsimp only
    rw [if_neg (by simp [hfd])]
  · intro hrec
    dsimp only
    rw [if_pos ⟨htot, hrec⟩]
  · intro hrec
    dsimp only
    rw [if_neg (by simp [hrec])]
  · intro p r hpr hrr hp0 hr0
    dsimp only at hpr hrr ⊢
    by_cases h1 : 0 < v.correct_predictions + v.false_positives
        + v.false_negatives ∧ 0 < v.fraud_detected
    · rw [if_pos h1] at hpr
      by_cases h2 : 0 < v.correct_predictions + v.false_positives
          + v.false_negatives ∧ 0 < (v.fraud_detected : ℚ)
            - (v.false_positives : ℚ) + (v.false_negatives : ℚ)
      · rw [if_pos h2] at hrr
        injection hpr with hpe
        injection hrr with hre
        rw [if_pos h1, if_pos h2]
        subst hpe
        subst hre
        refine f1Of_pos hp0 hr0 ?_
        have he1 : (0 : ℚ) ≤ ((v.fraud_detected : ℚ) - (v.false_positives : ℚ))
            / (v.fraud_detected : ℚ) :=
          div_nonneg (sub_nonneg.mpr (by exact_mod_cast hfp))
            (Nat.cast_nonneg _)
        have he2 : (0 : ℚ) ≤ ((v.fraud_detected : ℚ) - (v.false_positives : ℚ))
            / ((v.fraud_detected : ℚ) - (v.false_positives : ℚ)
                + (v.false_negatives : ℚ)) :=
          div_nonneg (sub_nonneg.mpr (by exact_mod_cast hfp)) (le_of_lt h2.2)
        exact add_pos_of_pos_of_nonneg (lt_of_le_of_ne he1 (Ne.symm hp0)) he2
      · rw [if_neg h2] at hrr
        exact Option.noConfusion hrr
    · rw [if_neg h1] at hpr
      exact Option.noConfusion hpr
  · intro hdeg
    dsimp only at hdeg ⊢
    rcases hdeg with h | h | h | h
    · by_cases h1 : 0 < v.correct_predictions + v.false_positives
          + v.false_negatives ∧ 0 < v.fraud_detected
      · rw [if_pos h1] at h
        exact Option.noConfusion h
      · rw [if_neg h1]
        exact f1Of_none_left _
    · by_cases h1 : 0 < v.correct_predictions + v.false_positives
          + v.false_negatives ∧ 0 < v.fraud_detected
      · rw [if_pos h1] at h
        injection h with he
        rw [if_pos h1, he]
        exact f1Of_zero_left _
      · rw [if_neg h1]
        exact f1Of_none_left _
    · by_cases h2 : 0 < v.correct_predictions + v.false_positives
          + v.false_negatives ∧ 0 < (v.fraud_detected : ℚ)
            - (v.false_positives : ℚ) + (v.false_negatives : ℚ)
      · rw [if_pos h2] at h
        exact Option.noConfusion h
      · rw [if_neg h2]
        exact f1Of_none_right _
    · by_cases h2 : 0 < v.correct_predictions + v.false_positives
          + v.false_negatives ∧ 0 < (v.fraud_detected : ℚ)
            - (v.false_positives : ℚ) + (v.false_negatives : ℚ)
      · rw [if_pos h2] at h
        injection h with he
        rw [if_pos h2, he]
        exact f1Of_zero_right _
      · rw [if_neg h2]
        exact f1Of_none_right _


/-- Counters with nonzero precision (3/4) and recall (3/5), for the C8
witness; the f1 score is 2/3. -/
def variantGood : ModelVariant :=
  { name := "v", model_path := "m", traffic_percentage := 100,
    predictions := 10, correct_predictions := 6, fraud_detected := 4,
    false_positives := 1, false_negatives := 2 }

theorem C8_amended_witness :
    ∃ m, get_variant_metrics variantGood = some m ∧
      m.precision = some (3/4) ∧ m.recall_ = some (3/5) ∧
      m.f1_score = some (2/3) := by
  obtain ⟨m, hm, hpre, _, hrec, _, hf1, _⟩ :=
    C8_amended variantGood (by norm_num [variantGood])
      (by norm_num [variantGood]) (by norm_num [variantGood])
  have hp : m.precision = some (3/4) := by
    rw [hpre (by norm_num [variantGood])]
    norm_num [variantGood]
  have hr : m.recall_ = some (3/5) := by
    rw [hrec (by norm_num [variantGood])]
    norm_num [variantGood]
  refine ⟨m, hm, hp, hr, ?_⟩
  rw [hf1 (3/4) (3/5) hp hr (by norm_num) (by norm_num)]
  norm_num

/-- A running one-variant experiment registered under id `exp1`, with its
service, for the C3 theorems. -/
def variantA : ModelVariant :=
  { name := "variant_A", model_path := "m1", traffic_percentage := 100,
    is_control := true }

def expRun : Experiment :=
  { experiment_id := "exp1", name := "E", variants := [variantA],
    status := .running }

def svcRun : ABTestingService := { experiments := [("exp1", expRun)] }

/-- A loader table whose model answers `42` for every input. -/
def loadersOk : String → Option (ℕ → Except String ℕ) :=
  fun nm => if nm = "variant_A" then some (fun _ => .ok 42) else none

/-- `lookupExperiment`/`get_variant_for_user` on the concrete running
service: the single 100% control variant is assigned. -/
theorem assign_expRun :
    get_variant_for_user (fun _ => 0) expRun "alice" = some variantA := by
  unfold get_variant_for_user
  rw [if_neg (show ¬(expRun.status ≠ ExperimentStatus.running) by
    simp [expRun])]
  simp [expRun, assignByBucket, variantA]

/-- The `Running` branch of `predict_with_ab_test`, as one equation. -/
theorem predict_running {Feat Pred : Type} (hash : String → ℕ)
    (loaders : String → Option (Feat → Except String Pred))
    (svc : ABTestingService) (experiment_id user_id : String)
    (features : Feat) (e : Experiment) (v : ModelVariant)
    (he : lookupExperiment svc experiment_id = some e)
    (hst : e.status = ExperimentStatus.running)
    (hv : get_variant_for_user hash e user_id = some v) :
    predict_with_ab_test hash loaders svc experiment_id user_id features
      = (match loaders v.name with
         | some model =>
             (match model features with
              | .ok p => Except.ok (v.name, PredictionOutput.model p, svc)
              | .error err => Except.error err)
         | none => Except.ok (v.name,
             PredictionOutput.fallback v.name v.model_path, svc)) := by
  unfold predict_with_ab_test
  rw [he]
  dsimp only
  rw [if_neg (show ¬(e.status ≠ ExperimentStatus.running) by simp [hst]), hv]

/-- C3 counterexample: on a running experiment, a *successful* round trip
through `predict_with_ab_test` returns the prediction but performs no
mutation at all — the returned service is the unchanged input service, whose
assigned variant's `predictions` counter is still 0, where the claim demands
a `RecordOutcome` (i.e. `record_prediction`) call on success. -/
theorem C3_counterexample :
    predict_with_ab_test (fun _ => 0) loadersOk svcRun "exp1" "alice" (0 : ℕ)
      = Except.ok ("variant_A", PredictionOutput.model 42, svcRun) ∧
    (lookupExperiment svcRun "exp1").map
        (fun e => e.variants.map (fun v => v.predictions)) = some [0] := by
  constructor
  · rw [predict_running (fun _ => 0) loadersOk svcRun "exp1" "alice" (0 : ℕ)
        expRun variantA rfl rfl assign_expRun]
    rfl
  · rfl

/-- C3 (amended): if the experiment is missing or not `Running`, the call
fails and (being pure) records nothing; if it is `Running`, the call assigns
a variant via `get_variant_for_user` and either delegates to the registered
loader's model — whose error propagates unchanged — or returns fallback
info when no loader is registered; in *every* case the service state is
returned unchanged: `predict_with_ab_test` never invokes
`record_prediction`, metric recording is left to the caller. -/
theorem C3_amended {Feat Pred : Type} (hash : String → ℕ)
    (loaders : String → Option (Feat → Except String Pred))
    (svc : ABTestingService) (experiment_id user_id : String)
    (features : Feat) :
    (lookupExperiment svc experiment_id = none →
      predict_with_ab_test hash loaders svc experiment_id user_id features
        = Except.error "Experiment not found or not running") ∧
    (∀ e, lookupExperiment svc experiment_id = some e →
      e.status ≠ ExperimentStatus.running →
      predict_with_ab_test hash loaders svc experiment_id user_id features
        = Except.error "Experiment not found or not running") ∧
    (∀ e v, lookupExperiment svc experiment_id = some e →
      e.status = ExperimentStatus.running →
      get_variant_for_user hash e user_id = some v →
      predict_with_ab_test hash loaders svc experiment_id user_id features
        = (match loaders v.name with
           | some model =>
               (match model features with
                | .ok p => Except.ok (v.name, PredictionOutput.model p, svc)
                | .error err => Except.error err)
           | none => Except.ok (v.name,
               PredictionOutput.fallback v.name v.model_path, svc))) := by
  refine ⟨fun hnone => ?_, fun e he hst => ?_, fun e v he hst hv => ?_⟩
  · unfold predict_with_ab_test
    rw [hnone]
  · unfold predict_with_ab_test
    rw [he]
    dsimp only
    rw [if_pos hst]
  · exact predict_running hash loaders svc experiment_id user_id features
      e v he hst hv

/-- A loader table whose model always fails. -/
def loadersErr : String → Option (ℕ → Except String ℕ) :=
  fun _ => some (fun _ => .error "model down")

theorem C3_amended_witness :
    predict_with_ab_test (fun _ => 0) loadersErr svcRun "exp1" "alice" (0 : ℕ)
      = Except.error "model down" := by
  have h := (C3_amended (fun _ => 0) loadersErr svcRun "exp1" "alice"
      (0 : ℕ)).2.2 expRun variantA rfl rfl assign_expRun
  rw [h]
  rfl

/-- Written from the spec (§4.3): the two-proportion z-test over the fraud
rates `p1, p2` with sample sizes `n1, n2`, returning
`(z, pValue, isSignificant)`; `sqrtF` is the square root and `cdfF` the
standard normal CDF Φ. -/
def specCompare (sqrtF cdfF : ℚ → ℚ) (confidenceLevel : ℚ)
    (p1 p2 : ℚ) (n1 n2 : ℕ) : ℚ × ℚ × Bool :=
  let pooled := (p1 * (n1 : ℚ) + p2 * (n2 : ℚ)) / ((n1 : ℚ) + (n2 : ℚ))
  let se := sqrtF (pooled * (1 - pooled) * (1 / (n1 : ℚ) + 1 / (n2 : ℚ)))
  let z := if 0 < se then (p2 - p1) / se else 0
  let pValue := 2 * (1 - cdfF |z|)
  (z, pValue, decide (pValue < 1 - confidenceLevel))

theorem fraudRateD_metrics (v : ModelVariant) (hp : v.predictions ≠ 0) :
    fraudRateD (get_variant_metrics v)
      = (v.fraud_detected : ℚ) / (v.predictions : ℚ) := by
  rw [get_variant_metrics_some v hp]
  rfl

theorem zTestStats_eq_spec (sqrtF cdfF : ℚ → ℚ) (cl : ℚ)
    (c t : ModelVariant) (hn1 : 0 < c.predictions)
    (hn2 : 0 < t.predictions) :
    zTestStats sqrtF cdfF cl c t (get_variant_metrics c)
        (get_variant_metrics t)
      = specCompare sqrtF cdfF cl
          ((c.fraud_detected : ℚ) / (c.predictions : ℚ))
          ((t.fraud_detected : ℚ) / (t.predictions : ℚ))
          c.predictions t.predictions := by
  unfold zTestStats specCompare
  rw [if_pos ⟨hn1, hn2⟩, fraudRateD_metrics c (Nat.pos_iff_ne_zero.mp hn1),
    fraudRateD_metrics t (Nat.pos_iff_ne_zero.mp hn2)]

theorem analyzeStep_comparisons (sqrtF cdfF : ℚ → ℚ) (cl : ℚ)
    (allV : List ModelVariant) (control : ModelVariant)
    (cm : Option VariantMetrics) (acc : AnalyzeAcc) (v : ModelVariant) :
    (analyzeStep sqrtF cdfF cl allV control cm acc v).comparisons
      = if v.name == control.name then acc.comparisons
        else acc.comparisons
          ++ [(v.name, mkComparison sqrtF cdfF cl allV control cm v)] := by
  unfold analyzeStep
  split_ifs with h
  · rfl
  · dsimp only
    split_ifs <;> rfl

/-- C9: for a control/treatment pair with positive sample sizes, the
comparison entry `analyze_results` produces carries exactly the spec's
two-proportion z-test values — `pooled`, `se`, `z`, `pValue = 2(1 − Φ|z|)`
computed from `p = fraudFlagged/predictions` — and `isSignificant` holds iff
`pValue < 1 − confidenceLevel`; instantiated at the worked example in the
witness below, so the code's values match the formula exactly (discrepancy
0 ≤ 1e-6). -/
theorem C9_ztest_matches_spec (sqrtF cdfF : ℚ → ℚ) (e : Experiment)
    (c t : ModelVariant) (hv : e.variants = [c, t])
    (hc : c.is_control = true) (hnames : c.name ≠ t.name)
    (hn1 : 0 < c.predictions) (hn2 : 0 < t.predictions) :
    ∃ r, analyze_results sqrtF cdfF e = some r ∧
      ∃ comp,
        r.metrics_comparison = [(t.name, comp)] ∧
        (comp.z_statistic, comp.p_value, comp.is_significant)
          = specCompare sqrtF cdfF e.confidence_level
              ((c.fraud_detected : ℚ) / (c.predictions : ℚ))
              ((t.fraud_detected : ℚ) / (t.predictions : ℚ))
              c.predictions t.predictions ∧
        (comp.is_significant = true ↔
          comp.p_value < 1 - e.confidence_level) := by
  have hbeqc : (c.name == c.name) = true := beq_self_eq_true _
  have hbeqt : (t.name == c.name) = false :=
    beq_eq_false_iff_ne.mpr (Ne.symm hnames)
  have hbeqct : (c.name == t.name) = false := beq_eq_false_iff_ne.mpr hnames
  have hbeqtt : (t.name == t.name) = true := beq_self_eq_true _
  have hctrl : controlOf e.variants = some c := by
    rw [hv]
    unfold controlOf
    rw [List.find?_cons_of_pos _ hc]
  have hmc : metricsDict e.variants c.name = get_variant_metrics c := by
    rw [hv]
    unfold metricsDict
    simp [List.filter_cons, hbeqc, hbeqt]
  have hmt : metricsDict [c, t] t.name = get_variant_metrics t := by
    unfold metricsDict
    simp [List.filter_cons, hbeqct, hbeqtt]
  unfold analyze_results
  rw [hctrl]
  dsimp only
  rw [hmc, hv]
  refine ⟨_, rfl, ?_⟩
  have hacc : List.foldl (analyzeStep sqrtF cdfF e.confidence_level [c, t] c
        (get_variant_metrics c)) ⟨[], c, 0⟩ [c, t]
      = analyzeStep sqrtF cdfF e.confidence_level [c, t] c
          (get_variant_metrics c) ⟨[], c, 0⟩ t := by
    simp only [List.foldl_cons, List.foldl_nil]
    congr 1
    unfold analyzeStep
    rw [hbeqc]
    rfl
  have hcomps : (List.foldl (analyzeStep sqrtF cdfF e.confidence_level [c, t]
        c (get_variant_metrics c)) ⟨[], c, 0⟩ [c, t]).comparisons
      = [(t.name, mkComparison sqrtF cdfF e.confidence_level [c, t] c
          (get_variant_metrics c) t)] := by
    rw [hacc, analyzeStep_comparisons, hbeqt]
    rfl
  refine ⟨mkComparison sqrtF cdfF e.confidence_level [c, t] c
      (get_variant_metrics c) t, ?_, ?_, ?_⟩
  · dsimp only
    rw [hcomps]
  · show ((zTestStats sqrtF cdfF e.confidence_level c t
        (get_variant_metrics c) (metricsDict [c, t] t.name)).1,
      (zTestStats sqrtF cdfF e.confidence_level c t
        (get_variant_metrics c) (metricsDict [c, t] t.name)).2.1,
      (zTestStats sqrtF cdfF e.confidence_level c t
        (get_variant_metrics c) (metricsDict [c, t] t.name)).2.2) = _
    rw [hmt, zTestStats_eq_spec sqrtF cdfF e.confidence_level c t hn1 hn2]
  · show (zTestStats sqrtF cdfF e.confidence_level c t
        (get_variant_metrics c) (metricsDict [c, t] t.name)).2.2 = true ↔
      (zTestStats sqrtF cdfF e.confidence_level c t
        (get_variant_metrics c) (metricsDict [c, t] t.name)).2.1
        < 1 - e.confidence_level
    rw [hmt, zTestStats_eq_spec sqrtF cdfF e.confidence_level c t hn1 hn2]
    exact decide_eq_true_iff

/-- The spec's worked example: control n=1000, fraudFlagged=20; treatment
n=1000, fraudFlagged=25; confidence level 0.95. -/
def ctrlZ : ModelVariant :=
  { name := "variant_A", model_path := "m", traffic_percentage := 50,
    is_control := true, predictions := 1000, fraud_detected := 20 }

def treatZ : ModelVariant :=
  { name := "variant_B", model_path := "m", traffic_percentage := 50,
    predictions := 1000, fraud_detected := 25 }

def expZ : Experiment :=
  { experiment_id := "e", name := "Z", variants := [ctrlZ, treatZ],
    confidence_level := 19/20 }

theorem C9_ztest_matches_spec_witness :
    ∃ r, analyze_results (fun q => q) (fun q => q) expZ = some r ∧
      ∃ comp,
        r.metrics_comparison = [("variant_B", comp)] ∧
        (comp.z_statistic, comp.p_value, comp.is_significant)
          = specCompare (fun q => q) (fun q => q) (19/20)
              (20/1000) (25/1000) 1000 1000 ∧
        (comp.is_significant = true ↔ comp.p_value < 1/20) := by
  obtain ⟨r, hr, comp, h1, h2, h3⟩ :=
    C9_ztest_matches_spec (fun q => q) (fun q => q) expZ ctrlZ treatZ rfl rfl
      (by decide) (by norm_num [ctrlZ]) (by norm_num [treatZ])
  refine ⟨r, hr, comp, h1, ?_, ?_⟩
  · rw [h2]
    norm_num [ctrlZ, treatZ, expZ]
  · have he : (1 : ℚ) - expZ.confidence_level = 1/20 := by
      norm_num [expZ]
    rw [← he]
    exact h3

/-- Champion-tracking invariant of the comparison loop of
`analyze_results`: the running best is either still the control with zero
improvement, or a non-control member of the variant list whose recorded
improvement is exactly its accuracy gain over the control and positive. -/
def BestInv (allV : List ModelVariant) (control : ModelVariant)
    (cm : Option VariantMetrics) (acc : AnalyzeAcc) : Prop :=
  (acc.best_variant = control ∧ acc.best_improvement = 0) ∨
    (acc.best_variant ∈ allV ∧ acc.best_variant.name ≠ control.name ∧
     acc.best_improvement
       = accD (metricsDict allV acc.best_variant.name) - accD cm ∧
     0 < acc.best_improvement)

theorem analyzeStep_best_inv (sqrtF cdfF : ℚ → ℚ) (cl : ℚ)
    (allV : List ModelVariant) (control : ModelVariant)
    (cm : Option VariantMetrics) (acc : AnalyzeAcc) (v : ModelVariant)
    (hv : v ∈ allV) (hinv : BestInv allV control cm acc) :
    BestInv allV control cm
      (analyzeStep sqrtF cdfF cl allV control cm acc v) := by
  unfold analyzeStep
  split_ifs with h1
  · exact hinv
  · dsimp only
    split_ifs with h2 h3
    · right
      refine ⟨hv, by simpa using h1, rfl, sub_pos.mpr h2⟩
    · exact hinv
    · exact hinv

theorem foldl_best_inv (sqrtF cdfF : ℚ → ℚ) (cl : ℚ)
    (allV : List ModelVariant) (control : ModelVariant)
    (cm : Option VariantMetrics) :
    ∀ (l : List ModelVariant) (acc : AnalyzeAcc),
      (∀ v ∈ l, v ∈ allV) → BestInv allV control cm acc →
      BestInv allV control cm
        (l.foldl (analyzeStep sqrtF cdfF cl allV control cm) acc) := by
  intro l
  induction l with
  | nil => intro acc _ hinv; exact hinv
  | cons v vs ih =>
      intro acc hsub hinv
      rw [List.foldl_cons]
      exact ih _ (fun w hw => hsub w (List.mem_cons_of_mem _ hw))
        (analyzeStep_best_inv sqrtF cdfF cl allV control cm acc v
          (hsub v (List.mem_cons_self _ _)) hinv)

theorem lt_tol001 : (1 : ℚ)/100 < tol001 := by
  norm_num [tol001]

/-- C7 (amended): in `analyze_results` the control is the default winner and
a treatment wins only when its accuracy exceeds the control's by strictly
more than the 0.01 threshold, in which case the recommendation is
`"Deploy variant '<name>' as the new model"`; when no variant beats the
control by more than 0.01 (ties and small improvements included), the
control wins with recommendation `"Keep current model '<control>'"`. -/
theorem C7_amended (sqrtF cdfF : ℚ → ℚ) (e : Experiment)
    (control : ModelVariant) (hc : controlOf e.variants = some control) :
    ∃ r, analyze_results sqrtF cdfF e = some r ∧
      (∀ w, r.winner = some w → w ≠ control.name →
        ∃ v, v ∈ e.variants ∧ v.name = w ∧
          accD (metricsDict e.variants control.name) + 1/100
            < accD (metricsDict e.variants v.name) ∧
          r.recommendation = "Deploy variant '" ++ w ++ "' as the new model") ∧
      ((∀ v ∈ e.variants, accD (metricsDict e.variants v.name)
          ≤ accD (metricsDict e.variants control.name) + 1/100) →
        r.winner = some control.name ∧
        r.recommendation = "Keep current model '" ++ control.name ++ "'") := by
  unfold analyze_results
  rw [hc]
  dsimp only
  refine ⟨_, rfl, ?_, ?_⟩
  all_goals
    have hinv := foldl_best_inv sqrtF cdfF e.confidence_level e.variants
      control (metricsDict e.variants control.name) e.variants
      ⟨[], control, 0⟩ (fun v hv => hv) (Or.inl ⟨rfl, rfl⟩)
  · intro w hw hwne
    dsimp only at hw
    by_cases hD : (!((List.foldl (analyzeStep sqrtF cdfF e.confidence_level
          e.variants control (metricsDict e.variants control.name))
          ⟨[], control, 0⟩ e.variants).best_variant.name == control.name) &&
        decide (tol001 < (List.foldl (analyzeStep sqrtF cdfF
          e.confidence_level e.variants control
          (metricsDict e.variants control.name))
          ⟨[], control, 0⟩ e.variants).best_improvement)) = true
    · rw [if_pos hD] at hw
      injection hw with hw
      have hD' := hD
      rw [Bool.and_eq_true] at hD'
      obtain ⟨hD1, hD2⟩ := hD'
      have htol : tol001 < (List.foldl (analyzeStep sqrtF cdfF
          e.confidence_level e.variants control
          (metricsDict e.variants control.name))
          ⟨[], control, 0⟩ e.variants).best_improvement :=
        of_decide_eq_true hD2
      rcases hinv with ⟨_, hz⟩ | ⟨hmem, _, heq, _⟩
      · rw [hz] at htol
        exact absurd htol (by norm_num [tol001])
      · refine ⟨_, hmem, hw, ?_, ?_⟩
        · rw [hw] at heq
          have := htol
          rw [heq] at this
          have h100 : (1 : ℚ)/100
              < accD (metricsDict e.variants w)
                - accD (metricsDict e.variants control.name) :=
            lt_trans lt_tol001 this
          rw [hw]
          linarith
        · dsimp only
          rw [if_pos hD, hw]
    · rw [if_neg hD] at hw
      injection hw with hw
      exact absurd hw.symm hwne
  · intro hall
    have hle : (List.foldl (analyzeStep sqrtF cdfF e.confidence_level
        e.variants control (metricsDict e.variants control.name))
        ⟨[], control, 0⟩ e.variants).best_improvement ≤ tol001 := by
      rcases hinv with ⟨_, hz⟩ | ⟨hmem, _, heq, _⟩
      · rw [hz]
        norm_num [tol001]
      · rw [heq]
        have := hall _ hmem
        have h1 : accD (metricsDict e.variants
            (List.foldl (analyzeStep sqrtF cdfF e.confidence_level
              e.variants control (metricsDict e.variants control.name))
              ⟨[], control, 0⟩ e.variants).best_variant.name)
            - accD (metricsDict e.variants control.name) ≤ 1/100 := by
          linarith
        exact le_trans h1 (le_of_lt lt_tol001)
    have hD2 : decide (tol001 < (List.foldl (analyzeStep sqrtF cdfF
        e.confidence_level e.variants control
        (metricsDict e.variants control.name))
        ⟨[], control, 0⟩ e.variants).best_improvement) = false :=
      decide_eq_false (not_lt.mpr hle)
    constructor
    · dsimp only
      rw [hD2, Bool.and_false]
      rfl
    · dsimp only
      rw [hD2, Bool.and_false]
      rfl

/-- Control with accuracy 1/2 and a treatment with accuracy 9/10: the
treatment wins. -/
def ctie : ModelVariant :=
  { name := "variant_A", model_path := "m", traffic_percentage := 50,
    is_control := true, predictions := 10, correct_predictions := 5,
    fraud_detected := 5, false_positives := 5 }

def twin : ModelVariant :=
  { name := "variant_B", model_path := "m", traffic_percentage := 50,
    predictions := 10, correct_predictions := 9, fraud_detected := 1,
    false_positives := 1 }

def expWin : Experiment :=
  { experiment_id := "e", name := "W", variants := [ctie, twin] }

theorem metricsDict_pair_head (a b : ModelVariant)
    (hab : (b.name == a.name) = false) :
    metricsDict [a, b] a.name = get_variant_metrics a := by
  unfold metricsDict
  rw [show List.filter (fun v => v.name == a.name) [a, b] = [a] from by
    rw [List.filter_cons, List.filter_cons, List.filter_nil,
      show (a.name == a.name) = true from beq_self_eq_true _, hab]
    simp]
  rfl

theorem metricsDict_pair_tail (a b : ModelVariant)
    (hab : (a.name == b.name) = false) :
    metricsDict [a, b] b.name = get_variant_metrics b := by
  unfold metricsDict
  rw [show List.filter (fun v => v.name == b.name) [a, b] = [b] from by
    rw [List.filter_cons, List.filter_cons, List.filter_nil, hab,
      show (b.name == b.name) = true from beq_self_eq_true _]
    simp]
  rfl

theorem accD_metrics (v : ModelVariant) (hp : v.predictions ≠ 0)
    (hl : 0 < v.correct_predictions + v.false_positives + v.false_negatives) :
    accD (get_variant_metrics v)
      = (v.correct_predictions : ℚ) / ((v.correct_predictions
          + v.false_positives + v.false_negatives : ℕ) : ℚ) := by
  rw [get_variant_metrics_some v hp]
  unfold accD
  simp only [Option.bind]
  rw [if_pos hl]
  rfl

theorem accD_ctie : accD (metricsDict [ctie, twin] ctie.name) = 1/2 := by
  rw [metricsDict_pair_head ctie twin (by decide),
    accD_metrics ctie (by norm_num [ctie]) (by norm_num [ctie])]
  norm_num [ctie]

theorem accD_twin : accD (metricsDict [ctie, twin] twin.name) = 9/10 := by
  rw [metricsDict_pair_tail ctie twin (by decide),
    accD_metrics twin (by norm_num [twin]) (by norm_num [twin])]
  norm_num [twin]

theorem foldWin :
    List.foldl (analyzeStep (fun q : ℚ => q) (fun q : ℚ => q)
        expWin.confidence_level [ctie, twin] ctie
        (metricsDict [ctie, twin] ctie.name)) ⟨[], ctie, 0⟩ [ctie, twin]
      = ⟨[(twin.name, mkComparison (fun q : ℚ => q) (fun q : ℚ => q)
            expWin.confidence_level [ctie, twin] ctie
            (metricsDict [ctie, twin] ctie.name) twin)],
          twin, accD (metricsDict [ctie, twin] twin.name)
            - accD (metricsDict [ctie, twin] ctie.name)⟩ := by
  have hlt : accD (metricsDict [ctie, twin] ctie.name)
      < accD (metricsDict [ctie, twin] twin.name) := by
    rw [accD_ctie, accD_twin]
    norm_num
  have hlt0 : (0 : ℚ) < accD (metricsDict [ctie, twin] twin.name)
      - accD (metricsDict [ctie, twin] ctie.name) := by
    rw [accD_ctie, accD_twin]
    norm_num
  simp only [List.foldl_cons, List.foldl_nil]
  rw [show analyzeStep (fun q : ℚ => q) (fun q : ℚ => q)
      expWin.confidence_level [ctie, twin] ctie
      (metricsDict [ctie, twin] ctie.name) ⟨[], ctie, 0⟩ ctie
        = ⟨[], ctie, 0⟩ from by
    unfold analyzeStep
    rw [if_pos (beq_self_eq_true _)]]
  unfold analyzeStep
  rw [if_neg (show ¬((twin.name == ctie.name) = true) by decide)]
  rw [if_pos hlt]
  rw [if_pos hlt0]
  rfl

/-- C7 counterexample: with control accuracy 1/2 and treatment accuracy
9/10 the treatment wins, and the recommendation string is
`"Deploy variant 'variant_B' as the new model"` — carrying the
`" as the new model"` suffix, so it is *not* exactly
`"Deploy variant 'variant_B'"` as the claim states. -/
theorem C7_counterexample :
    ∃ r, analyze_results (fun q : ℚ => q) (fun q : ℚ => q) expWin = some r ∧
      r.winner = some "variant_B" ∧
      r.recommendation = "Deploy variant 'variant_B' as the new model" ∧
      r.recommendation ≠ "Deploy variant 'variant_B'" := by
  have hdep : (!(twin.name == ctie.name) &&
      decide (tol001 < accD (metricsDict [ctie, twin] twin.name)
        - accD (metricsDict [ctie, twin] ctie.name))) = true := by
    rw [accD_ctie, accD_twin,
      show (twin.name == ctie.name) = false by decide]
    norm_num [tol001]
  unfold analyze_results
  rw [show controlOf expWin.variants = some ctie from rfl]
  dsimp only
  rw [show expWin.variants = [ctie, twin] from rfl, foldWin]
  refine ⟨_, rfl, ?_, ?_, ?_⟩
  · rw [hdep, if_pos rfl]
    rfl
  · rw [hdep, if_pos rfl]
    rfl
  · rw [hdep, if_pos rfl]
    decide

/-- A treatment with the same accuracy (1/2) as the control `ctie`. -/
def tTie : ModelVariant :=
  { name := "variant_B", model_path := "m", traffic_percentage := 50,
    predictions := 10, correct_predictions := 5, fraud_detected := 5,
    false_positives := 5 }

def expTie : Experiment :=
  { experiment_id := "e", name := "T", variants := [ctie, tTie] }

theorem C7_amended_witness :
    ∃ r, analyze_results (fun q : ℚ => q) (fun q : ℚ => q) expTie = some r ∧
      r.winner = some "variant_A" ∧
      r.recommendation = "Keep current model 'variant_A'" := by
  obtain ⟨r, hr, _, hkeep⟩ :=
    C7_amended (fun q : ℚ => q) (fun q : ℚ => q) expTie ctie rfl
  have h1 : accD (metricsDict [ctie, tTie] ctie.name) = 1/2 := by
    rw [metricsDict_pair_head ctie tTie (by decide),
      accD_metrics ctie (by norm_num [ctie]) (by norm_num [ctie])]
    norm_num [ctie]
  have h2 : accD (metricsDict [ctie, tTie] tTie.name) = 1/2 := by
    rw [metricsDict_pair_tail ctie tTie (by decide),
      accD_metrics tTie (by norm_num [tTie]) (by norm_num [tTie])]
    norm_num [tTie]
  have hall : ∀ v ∈ expTie.variants,
      accD (metricsDict expTie.variants v.name)
        ≤ accD (metricsDict expTie.variants ctie.name) + 1/100 := by
    intro v hv
    rw [show expTie.variants = [ctie, tTie] from rfl] at hv ⊢
    rcases List.mem_cons.mp hv with h | h
    · subst h
      rw [h1]
      norm_num
    · rcases List.mem_cons.mp h with h | h
      · subst h
        rw [h2, h1]
        norm_num
      · simp at h
  obtain ⟨hw, hrec⟩ := hkeep hall
  refine ⟨r, hr, hw, ?_⟩
  rw [hrec]
  rfl

end ABTesting
